import Mathlib

/-!
Verification of the MongoDB backup/restore driver
(`src/lib/drivers/mongodb/index.js`) against its specification.

The driver is embedded shallowly:

* JavaScript string primitives (`includes`, `endsWith`, one-occurrence
  `replace`) are modelled as executable functions on `List Char`.
* The database visible to one operation is an association list from
  collection names to document lists; documents are opaque payloads
  (formats that round-trip document structure losslessly carry them
  through unchanged, which is the regime the spec's round-trip and
  count properties quantify over).
* The sequential orchestration (`doBackup` / `doRestore` drive a
  work-list drained front to back, one item at a time) is modelled as
  structural recursion over the collection / file list.  The drop
  phase preceding restore is modelled with the sequential semantics
  (all drops settle before any create), which is the reading the spec
  fixes for a deterministic reimplementation; the original
  fire-and-forget drop dispatch is a concurrency artefact outside the
  embedding.
* Filesystem effects are made explicit: a backup run returns the list
  of directories it created, the list of files it wrote (recorded by
  base name, the run directory being a separate component), and the
  status string the promise chain resolves to.  Stream failures are
  modelled by a per-item `readOk` flag plus the error message the
  `'error'` handler would observe; both orchestrators are total
  functions into result strings, mirroring the promise `.catch`
  conversion of every failure into a sentence.
-/

/-- Documents are opaque payloads; only their identity/count matters to the
orchestration layer, never their contents. -/
abbrev Doc := Nat

/-- Model of JS `String.prototype.startsWith` restricted to char lists:
`charsPrefixOf p l` holds iff `p` is a prefix of `l`. -/
def charsPrefixOf : List Char → List Char → Bool
  | [], _ => true
  | _ :: _, [] => false
  | a :: as, b :: bs => a == b && charsPrefixOf as bs

/-- `charsInfixOf p l` holds iff `p` occurs contiguously somewhere in `l`
(model of JS `String.prototype.includes` and of the regex
`/^.*system\..*$/`, which matches exactly the strings containing the
literal pattern). -/
def charsInfixOf (pat : List Char) : List Char → Bool
  | [] => charsPrefixOf pat []
  | c :: cs => charsPrefixOf pat (c :: cs) || charsInfixOf pat cs

/-- `charsSuffixOf p l` holds iff `p` is a suffix of `l` (model of JS
`String.prototype.endsWith`). -/
def charsSuffixOf (pat s : List Char) : Bool := charsPrefixOf pat.reverse s.reverse

/-- Remove the first occurrence of `pat` from `s`, leaving `s` unchanged when
`pat` does not occur: the semantics of JS `s.replace(pat, '')` with a plain
string pattern, which replaces only the first occurrence. -/
def removeFirstOcc (pat : List Char) : List Char → List Char
  | [] => []
  | c :: cs =>
    if charsPrefixOf pat (c :: cs) then (c :: cs).drop pat.length
    else c :: removeFirstOcc pat cs

/-- JS `s.includes(pat)`. -/
def strIncludes (s pat : String) : Bool := charsInfixOf pat.data s.data

/-- JS `s.endsWith(post)`. -/
def strEndsWith (s post : String) : Bool := charsSuffixOf post.data s.data

/-- JS `s.replace(pat, '')` with a string pattern: removes the first
occurrence of `pat` only (index.js line 138 relies on this primitive). -/
def jsReplaceFirst (s pat : String) : String := String.mk (removeFirstOcc pat.data s.data)

/-- Modelled from the spec: the format registry `FORMATS` lives in
`src/lib/constants.js`, which is not under `src/`.  The spec describes it as
"a format identifier drawn from a small closed enumeration (e.g., JSON-lines
and CSV-like tabular forms)", so the registry is modelled as exactly those
two identifiers.  `_getDataFormat` iterates `Object.values(FORMATS)`. -/
def FORMATS : List String := ["json", "csv"]

/-- `systemRegex = /^.*system\..*$/` (index.js line 12) together with
`_systemCollection` (lines 197-199): a collection name is system-reserved
iff it contains the substring `system.` anywhere. -/
def _systemCollection (collectionName : String) : Bool :=
  strIncludes collectionName "system."

/-- `_getDataFormat` (index.js lines 184-191): a JS `reduce` over the format
registry starting from `null`; each format whose dot-extension is a suffix of
the file name overwrites the accumulator, so the last matching format wins
and `none` is returned when no extension matches. -/
def _getDataFormat (fileName : String) : Option String :=
  FORMATS.foldl
    (fun dataFormat key =>
      if strEndsWith fileName ("." ++ key) then some key else dataFormat)
    none

/-- One source collection as seen by a backup run: its name, its documents,
whether the read stream over it completes (`readOk = false` models the
`'error'` event on `collection.find().stream()`), and the message carried by
that error event. -/
structure Collection where
  collectionName : String
  docs : List Doc
  readOk : Bool
  errMsg : String
deriving DecidableEq

/-- One file of a backup directory as seen by a restore run: its base name
inside the directory, the documents its decoded content yields, whether the
read stream over it completes (`readOk = false` models the `'error'` event on
`fs.createReadStream`), and the message carried by that error event. -/
structure BackupFile where
  name : String
  docs : List Doc
  readOk : Bool
  errMsg : String
deriving DecidableEq

/-- The state of the target database: an association list from collection
names to document lists, in creation order. -/
abbrev Db := List (String × List Doc)

/-- Number of documents of the named collection (0 when absent). -/
def docCount (db : Db) (name : String) : Nat :=
  match db.find? (fun c => c.1 == name) with
  | some c => c.2.length
  | none => 0

/-- Number of documents of the named source collection (0 when absent). -/
def sourceCount (cols : List Collection) (name : String) : Nat :=
  match cols.find? (fun c => c.collectionName == name) with
  | some c => c.docs.length
  | none => 0

/-- `_dropCollections` (index.js lines 174-182): every collection whose name
does not match the system pattern is dropped; system-named collections are
left in place.  (The JS code issues the drops without awaiting them; the
sequential semantics — all drops settled before restore proceeds — is
modelled here, as fixed by the spec for a deterministic reading.) -/
def _dropCollections (db : Db) : Db :=
  db.filter (fun c => _systemCollection c.1)

/-- `db.createCollection(name)` (index.js line 139): the driver returns the
existing collection when one of that name already exists and otherwise
creates an empty one (MongoDB driver non-strict `createCollection`). -/
def createCollection (db : Db) (name : String) : Db :=
  if db.any (fun c => c.1 == name) then db else db ++ [(name, [])]

/-- `collection.bulkWrite(docs.map(insertOne))` (index.js lines 162-168): the
decoded documents are appended to the named collection as an ordered batch of
inserts.  (Write errors and write-concern errors are reported, not modelled:
in the lossless regime the embedding covers, every insert succeeds.) -/
def bulkWriteInsert (db : Db) (name : String) (docs : List Doc) : Db :=
  db.map (fun c => if c.1 == name then (c.1, c.2 ++ docs) else c)

/-- The base name of the file written for one collection
(index.js line 94: `{collectionName}.{format}`). -/
def backupFileName (collectionName format : String) : String :=
  collectionName ++ "." ++ format

/-- The backup run directory (index.js line 87:
`{path}{epochMillis}_{database}`); `t` is the epoch-milliseconds timestamp
taken at the start of the run. -/
def backupFolderName (path : String) (t : Nat) (database : String) : String :=
  path ++ toString t ++ "_" ++ database

/-- The collection enumeration loop of `_backupCollections` (index.js lines
90-97) together with `_backupCollection` (lines 101-123): collections are
drained front to back; a system-named collection is skipped; otherwise the
collection is streamed into a file named `{collectionName}.{format}`.  When
the read stream errors, `_backupCollection` rejects with
`Can't back up {name}. {message}` and the `await` in the loop propagates the
rejection, so no later collection is processed.  Returns the files fully
written (in order) and the rejection, if any. -/
def _backupCollections (format : String) :
    List Collection → List BackupFile × Option String
  | [] => ([], none)
  | c :: cs =>
    if _systemCollection c.collectionName then _backupCollections format cs
    else if c.readOk then
      let r := _backupCollections format cs
      (⟨backupFileName c.collectionName format, c.docs, true, ""⟩ :: r.1, r.2)
    else ([], some ("Can't back up " ++ c.collectionName ++ ". " ++ c.errMsg))

/-- Everything a backup run does that is visible to the caller: the
directories it created, the files it wrote into the (single) run directory,
and the string its promise chain resolves to.  `doBackup` never throws: both
branches of the promise are converted to a sentence (index.js lines 51-53). -/
structure BackupResult where
  dirs : List String
  files : List BackupFile
  message : String
deriving DecidableEq

/-- `doBackup` (index.js lines 29-54) plus `_backupCollections` (lines
84-99): an empty collection list rejects with `Database is empty` before any
directory is created; otherwise the run directory is created once, the
enumeration loop runs, and the result (the folder path on success, the
propagated rejection otherwise) is rendered as a sentence. -/
def doBackup (path database format : String) (t : Nat)
    (collections : List Collection) : BackupResult :=
  if collections.length = 0 then
    { dirs := [], files := [],
      message := "Error while backing up database. Database is empty" }
  else
    match _backupCollections format collections with
    | (files, none) =>
      { dirs := [backupFolderName path t database], files := files,
        message := "Backup is ready. Path to backup is "
          ++ backupFolderName path t database ++ "." }
    | (files, some err) =>
      { dirs := [backupFolderName path t database], files := files,
        message := "Error while backing up database. " ++ err }

/-- The file loop of `_restoreCollections` (index.js lines 125-146) together
with `_restoreCollection` (lines 148-172): files are drained front to back.
A file whose extension matches no registered format is logged and skipped
(`continue`, line 134).  Otherwise the target collection name is the file
name with the first occurrence of `.{format}` removed (line 138, JS
`replace`), the collection is created, and the decoded documents are bulk
inserted.  There is no system-name check in this loop (the line-137 TODO).
When the read stream errors, `_restoreCollection` rejects with
`Can't restore {collectionName}. {message}`; the un-guarded `await` at line
140 propagates the rejection, ending the loop.  Returns the database state
reached and the rejection, if any. -/
def _restoreCollections : Db → List BackupFile → Db × Option String
  | db, [] => (db, none)
  | db, f :: files =>
    match _getDataFormat f.name with
    | none => _restoreCollections db files
    | some dataFormat =>
      if f.readOk then
        _restoreCollections
          (bulkWriteInsert
            (createCollection db (jsReplaceFirst f.name ("." ++ dataFormat)))
            (jsReplaceFirst f.name ("." ++ dataFormat)) f.docs)
          files
      else
        (createCollection db (jsReplaceFirst f.name ("." ++ dataFormat)),
         some ("Can't restore " ++ jsReplaceFirst f.name ("." ++ dataFormat)
           ++ ". " ++ f.errMsg))

/-- `doRestore` (index.js lines 56-82): an empty directory listing rejects
with `Files are not fould in backup folder` (sic) before anything is touched;
otherwise the drop phase runs, then the file loop, and the outcome is
rendered as a sentence.  `doRestore` never throws: both branches of the
promise are converted to a string (lines 79-81).  Returns the final database
state together with that string. -/
def doRestore (db : Db) (files : List BackupFile) : Db × String :=
  if files.length = 0 then
    (db, "Error while restoring database. Files are not fould in backup folder")
  else
    match _restoreCollections (_dropCollections db) files with
    | (db2, none) => (db2, "Database restored")
    | (db2, some err) => (db2, "Error while restoring database. " ++ err)

/-- The collections a backup run transfers: exactly the non-system ones, in
enumeration order (spec: "eligible (non-system) collections"). -/
def eligibleCollections (cols : List Collection) : List Collection :=
  cols.filter (fun c => !_systemCollection c.collectionName)

/-- The files a fully successful backup run writes, one per eligible
collection, carrying that collection's documents. -/
def toBackupFiles (format : String) (cols : List Collection) : List BackupFile :=
  cols.map (fun c => ⟨backupFileName c.collectionName format, c.docs, true, ""⟩)

example : _systemCollection "mysystem.data" = true := by decide
example : _systemCollection "users" = false := by decide
example : _getDataFormat "users.json" = some "json" := by decide
example : _getDataFormat "notes.txt" = none := by decide
example : jsReplaceFirst "a.json.b.json" ".json" = "a.b.json" := by decide
example : jsReplaceFirst "sys.jsontem.data.json" ".json" = "system.data.json" := by decide

example :
    (doBackup "/b/" "shop" "json" 5
      [⟨"users", [0], true, ""⟩, ⟨"mysystem.data", [1], true, ""⟩]).files
      = [⟨"users.json", [0], true, ""⟩] := by decide

example :
    (doRestore [] [⟨"users.json", [0], true, ""⟩]).1 = [("users", [0])] := by decide

example :
    docCount (doRestore (doRestore [] [⟨"sys.jsontem.data.json", [0], true, ""⟩]).1
      [⟨"sys.jsontem.data.json", [0], true, ""⟩]).1 "system.data.json" = 2 := by decide

example :
    (doRestore [] [⟨"a.json", [0], false, "read failed"⟩, ⟨"b.json", [1], true, ""⟩]).2
      = "Error while restoring database. Can't restore a. read failed" := by decide

/-! ### String-level lemmas -/

theorem charsPrefixOf_self_append (p rest : List Char) :
    charsPrefixOf p (p ++ rest) = true := by
  induction p with
  | nil => rfl
  | cons a as ih => simp [charsPrefixOf, ih]

theorem charsInfixOf_nil_pat (l : List Char) : charsInfixOf [] l = true := by
  cases l <;> simp [charsInfixOf, charsPrefixOf]

theorem charsInfixOf_mid (p pre rest : List Char) :
    charsInfixOf p (pre ++ (p ++ rest)) = true := by
  induction pre with
  | nil =>
    cases p with
    | nil => exact charsInfixOf_nil_pat rest
    | cons a as =>
      have h := charsPrefixOf_self_append (a :: as) rest
      simp only [List.nil_append, List.cons_append, charsInfixOf]
      simp only [List.cons_append] at h
      simp [h]
  | cons c cs ih => simp [charsInfixOf, ih]

/-- Any name of shape `{pre}system.{suf}` matches the system pattern. -/
theorem systemCollection_append (pre suf : String) :
    _systemCollection (pre ++ "system." ++ suf) = true := by
  show charsInfixOf ("system." : String).data (pre ++ "system." ++ suf).data = true
  rw [String.data_append, String.data_append, List.append_assoc]
  exact charsInfixOf_mid _ _ _

theorem string_append_right_cancel {a b s : String} (h : a ++ s = b ++ s) :
    a = b := by
  apply String.ext
  have h2 : a.data ++ s.data = b.data ++ s.data := by
    rw [← String.data_append, ← String.data_append, h]
  exact List.append_cancel_right h2

theorem backupFileName_inj {a b format : String}
    (h : backupFileName a format = backupFileName b format) : a = b := by
  unfold backupFileName at h
  exact string_append_right_cancel (string_append_right_cancel h)

/-! ### Backup-side lemmas -/

theorem _backupCollections_ok (format : String) (cols : List Collection)
    (hok : ∀ c ∈ cols, c.readOk = true) :
    _backupCollections format cols
      = (toBackupFiles format (eligibleCollections cols), none) := by
  induction cols with
  | nil => rfl
  | cons c cs ih =>
    have hc := hok c (List.mem_cons_self c cs)
    have ih2 := ih (fun x hx => hok x (List.mem_cons_of_mem c hx))
    cases hs : _systemCollection c.collectionName with
    | true =>
      simp [_backupCollections, hs, ih2, eligibleCollections, toBackupFiles,
        List.filter_cons]
    | false =>
      simp [_backupCollections, hs, hc, ih2, eligibleCollections, toBackupFiles,
        List.filter_cons]

/-- Every file a backup enumeration writes belongs to a non-system collection
and is named after it. -/
theorem _backupCollections_files_mem (format : String) (cols : List Collection)
    {f : BackupFile} (hf : f ∈ (_backupCollections format cols).1) :
    ∃ c ∈ cols, _systemCollection c.collectionName = false ∧
      f.name = backupFileName c.collectionName format := by
  induction cols with
  | nil => simp [_backupCollections] at hf
  | cons c cs ih =>
    cases hs : _systemCollection c.collectionName with
    | true =>
      rw [_backupCollections, if_pos (by rw [hs])] at hf
      obtain ⟨c', hc', h1, h2⟩ := ih hf
      exact ⟨c', List.mem_cons_of_mem _ hc', h1, h2⟩
    | false =>
      cases hr : c.readOk with
      | false =>
        rw [_backupCollections, if_neg (by rw [hs]; exact Bool.false_ne_true),
          if_neg (by rw [hr]; exact Bool.false_ne_true)] at hf
        simp at hf
      | true =>
        rw [_backupCollections, if_neg (by rw [hs]; exact Bool.false_ne_true),
          if_pos (by rw [hr])] at hf
        rcases List.mem_cons.mp hf with h | h
        · exact ⟨c, List.mem_cons_self c cs, hs, by rw [h]⟩
        · obtain ⟨c', hc', h1, h2⟩ := ih h
          exact ⟨c', List.mem_cons_of_mem _ hc', h1, h2⟩

theorem doBackup_ok (path database format : String) (t : Nat)
    (cols : List Collection) (hne : cols ≠ [])
    (hok : ∀ c ∈ cols, c.readOk = true) :
    doBackup path database format t cols =
      { dirs := [backupFolderName path t database],
        files := toBackupFiles format (eligibleCollections cols),
        message := "Backup is ready. Path to backup is "
          ++ backupFolderName path t database ++ "." } := by
  unfold doBackup
  rw [if_neg (by simpa [List.length_eq_zero] using hne),
    _backupCollections_ok format cols hok]

theorem doBackup_files_mem {path database format : String} {t : Nat}
    {cols : List Collection} {f : BackupFile}
    (hf : f ∈ (doBackup path database format t cols).files) :
    ∃ c ∈ cols, _systemCollection c.collectionName = false ∧
      f.name = backupFileName c.collectionName format := by
  apply _backupCollections_files_mem format cols
  unfold doBackup at hf
  by_cases h : cols.length = 0
  · rw [if_pos h] at hf
    simp at hf
  · rw [if_neg h] at hf
    rcases hres : _backupCollections format cols with ⟨files, o⟩
    rw [hres] at hf
    cases o <;> simpa using hf

/-! ### Restore-side lemmas -/

/-- A restore loop over files that all read cleanly (or are skipped as
unrecognized) ends without a rejection. -/
theorem _restoreCollections_none (db : Db) (files : List BackupFile)
    (h : ∀ f ∈ files, f.readOk = true ∨ _getDataFormat f.name = none) :
    (_restoreCollections db files).2 = none := by
  induction files generalizing db with
  | nil => rfl
  | cons f fs ih =>
    have hf := h f (List.mem_cons_self f fs)
    have h2 : ∀ g ∈ fs, g.readOk = true ∨ _getDataFormat g.name = none :=
      fun g hg => h g (List.mem_cons_of_mem f hg)
    cases hfmt : _getDataFormat f.name with
    | none =>
      simp only [_restoreCollections, hfmt]
      exact ih _ h2
    | some fmt =>
      have hro : f.readOk = true := by
        rcases hf with h | h
        · exact h
        · rw [hfmt] at h
          cases h
      simp only [_restoreCollections, hfmt, hro, if_true]
      exact ih _ h2

/-- An unrecognized file is transparent to the restore loop. -/
theorem _restoreCollections_skip (db : Db) (pre post : List BackupFile)
    (u : BackupFile) (hu : _getDataFormat u.name = none) :
    _restoreCollections db (pre ++ u :: post)
      = _restoreCollections db (pre ++ post) := by
  induction pre generalizing db with
  | nil =>
    simp only [List.nil_append, _restoreCollections, hu]
  | cons f fs ih =>
    cases hfmt : _getDataFormat f.name with
    | none =>
      simp only [List.cons_append, _restoreCollections, hfmt]
      exact ih _
    | some fmt =>
      cases hro : f.readOk with
      | true =>
        simp only [List.cons_append, _restoreCollections, hfmt, hro, if_true]
        exact ih _
      | false =>
        simp only [List.cons_append, _restoreCollections, hfmt, hro,
          Bool.false_eq_true, if_false]

/-- A failing recognized file ends the restore loop: the files after it are
never examined. -/
theorem _restoreCollections_abort (db : Db) (pre post : List BackupFile)
    (bad : BackupFile) (fmt : String)
    (hpre : ∀ f ∈ pre, f.readOk = true)
    (hbad : bad.readOk = false) (hfmt : _getDataFormat bad.name = some fmt) :
    _restoreCollections db (pre ++ bad :: post)
      = _restoreCollections db (pre ++ [bad]) := by
  induction pre generalizing db with
  | nil =>
    simp only [List.nil_append, _restoreCollections, hfmt, hbad,
      Bool.false_eq_true, if_false]
  | cons f fs ih =>
    have hf := hpre f (List.mem_cons_self f fs)
    have h2 : ∀ g ∈ fs, g.readOk = true :=
      fun g hg => hpre g (List.mem_cons_of_mem f hg)
    cases hfmt2 : _getDataFormat f.name with
    | none =>
      simp only [List.cons_append, _restoreCollections, hfmt2]
      exact ih _ h2
    | some fmt2 =>
      simp only [List.cons_append, _restoreCollections, hfmt2, hf, if_true]
      exact ih _ h2

/-- The rejection a failing recognized file produces, as the loop reports it. -/
theorem _restoreCollections_abort_snd (db : Db) (pre post : List BackupFile)
    (bad : BackupFile) (fmt : String)
    (hpre : ∀ f ∈ pre, f.readOk = true)
    (hbad : bad.readOk = false) (hfmt : _getDataFormat bad.name = some fmt) :
    (_restoreCollections db (pre ++ bad :: post)).2
      = some ("Can't restore " ++ jsReplaceFirst bad.name ("." ++ fmt)
          ++ ". " ++ bad.errMsg) := by
  induction pre generalizing db with
  | nil =>
    simp only [List.nil_append, _restoreCollections, hfmt, hbad,
      Bool.false_eq_true, if_false]
  | cons f fs ih =>
    have hf := hpre f (List.mem_cons_self f fs)
    have h2 : ∀ g ∈ fs, g.readOk = true :=
      fun g hg => hpre g (List.mem_cons_of_mem f hg)
    cases hfmt2 : _getDataFormat f.name with
    | none =>
      simp only [List.cons_append, _restoreCollections, hfmt2]
      exact ih _ h2
    | some fmt2 =>
      simp only [List.cons_append, _restoreCollections, hfmt2, hf, if_true]
      exact ih _ h2

/-! ### Creating and populating fresh collections -/

theorem createCollection_fresh (db : Db) (n : String)
    (h : ∀ e ∈ db, e.1 ≠ n) : createCollection db n = db ++ [(n, [])] := by
  have hany : db.any (fun c => c.1 == n) = false := by
    rw [List.any_eq_false]
    intro e he
    simp only [beq_iff_eq]
    exact h e he
  simp [createCollection, hany]

theorem bulkWriteInsert_fresh_append (db : Db) (n : String) (docs : List Doc)
    (h : ∀ e ∈ db, e.1 ≠ n) :
    bulkWriteInsert (db ++ [(n, [])]) n docs = db ++ [(n, docs)] := by
  induction db with
  | nil => simp [bulkWriteInsert]
  | cons e es ih =>
    have he1 : e.1 ≠ n := h e (List.mem_cons_self e es)
    have ih2 := ih (fun x hx => h x (List.mem_cons_of_mem e hx))
    simp only [bulkWriteInsert, List.cons_append, List.map_cons] at ih2 ⊢
    rw [if_neg (by simp [he1])]
    rw [ih2]

/-- Restoring the files of a fully successful backup of `cols` into a
database that contains none of their names appends each collection with its
documents, in order, and ends cleanly.  The two name hypotheses say that the
derived restore name of each written file is the original collection name:
its extension is recognized as `format`, and removing the first occurrence of
`.{format}` from `{name}.{format}` gives back `{name}`. -/
theorem _restoreCollections_fresh (format : String) (cols : List Collection)
    (db : Db)
    (hfmt : ∀ c ∈ cols,
      _getDataFormat (backupFileName c.collectionName format) = some format)
    (hname : ∀ c ∈ cols,
      jsReplaceFirst (backupFileName c.collectionName format) ("." ++ format)
        = c.collectionName)
    (hfresh : ∀ c ∈ cols, ∀ e ∈ db, e.1 ≠ c.collectionName)
    (hnodup : (cols.map Collection.collectionName).Nodup) :
    _restoreCollections db (toBackupFiles format cols)
      = (db ++ cols.map (fun c => (c.collectionName, c.docs)), none) := by
  induction cols generalizing db with
  | nil => simp [toBackupFiles, _restoreCollections]
  | cons c cs ih =>
    have hfmtc := hfmt c (List.mem_cons_self c cs)
    have hnamec := hname c (List.mem_cons_self c cs)
    have hfreshc := hfresh c (List.mem_cons_self c cs)
    simp only [toBackupFiles, List.map_cons, _restoreCollections, hfmtc, hnamec,
      if_true]
    rw [createCollection_fresh db c.collectionName hfreshc,
      bulkWriteInsert_fresh_append db c.collectionName c.docs hfreshc]
    have hnodup2 : (cs.map Collection.collectionName).Nodup :=
      (List.nodup_cons.mp hnodup).2
    have hnotin : c.collectionName ∉ cs.map Collection.collectionName :=
      (List.nodup_cons.mp hnodup).1
    have hfresh2 : ∀ x ∈ cs, ∀ e ∈ db ++ [(c.collectionName, c.docs)],
        e.1 ≠ x.collectionName := by
      intro x hx e he
      rcases List.mem_append.mp he with h | h
      · exact hfresh x (List.mem_cons_of_mem c hx) e h
      · have : e = (c.collectionName, c.docs) := by simpa using h
        rw [this]
        intro hcontr
        have hcc : c.collectionName = x.collectionName := hcontr
        apply hnotin
        rw [hcc]
        exact List.mem_map_of_mem Collection.collectionName hx
    have := ih (db ++ [(c.collectionName, c.docs)])
      (fun x hx => hfmt x (List.mem_cons_of_mem c hx))
      (fun x hx => hname x (List.mem_cons_of_mem c hx))
      hfresh2 hnodup2
    simp only [toBackupFiles] at this
    rw [this, List.append_assoc, List.singleton_append]

/-! ### Counting documents -/

theorem docCount_cons_ne (e : String × List Doc) (db : Db) (n : String)
    (h : (e.1 == n) = false) : docCount (e :: db) n = docCount db n := by
  simp [docCount, List.find?, h]

theorem docCount_cons_eq (e : String × List Doc) (db : Db) (n : String)
    (h : (e.1 == n) = true) : docCount (e :: db) n = e.2.length := by
  simp [docCount, List.find?, h]

theorem docCount_map_eq_sourceCount (cols : List Collection) (name : String) :
    docCount (cols.map (fun c => (c.collectionName, c.docs))) name
      = sourceCount cols name := by
  induction cols with
  | nil => rfl
  | cons c cs ih =>
    cases h : (c.collectionName == name) with
    | true => simp [docCount, sourceCount, List.find?, h]
    | false =>
      simp only [List.map_cons]
      rw [docCount_cons_ne _ _ _ h]
      rw [ih]
      simp [sourceCount, List.find?, h]

theorem createCollection_cons_ne (e : String × List Doc) (es : Db) (n : String)
    (h : (e.1 == n) = false) :
    createCollection (e :: es) n = e :: createCollection es n := by
  unfold createCollection
  rw [List.any_cons, h]
  cases ha : es.any (fun c => c.1 == n) <;> simp [ha]

theorem createCollection_cons_eq (e : String × List Doc) (es : Db) (n : String)
    (h : (e.1 == n) = true) : createCollection (e :: es) n = e :: es := by
  unfold createCollection
  rw [List.any_cons, h]
  simp

/-- Creating (or re-using) the named collection and bulk inserting into it
adds exactly the inserted documents to its count. -/
theorem docCount_createInsert (db : Db) (n : String) (docs : List Doc) :
    docCount (bulkWriteInsert (createCollection db n) n docs) n
      = docCount db n + docs.length := by
  induction db with
  | nil => simp [createCollection, bulkWriteInsert, docCount, List.find?]
  | cons e es ih =>
    cases he : (e.1 == n) with
    | true =>
      rw [createCollection_cons_eq e es n he]
      simp only [bulkWriteInsert, List.map_cons, he, if_true]
      rw [docCount_cons_eq _ _ _ (by simpa using he), docCount_cons_eq _ _ _ he]
      simp [Nat.add_assoc, Nat.add_comm]
    | false =>
      rw [createCollection_cons_ne e es n he]
      simp only [bulkWriteInsert, List.map_cons, he, Bool.false_eq_true, if_false]
      rw [docCount_cons_ne _ _ _ he, docCount_cons_ne _ _ _ he]
      exact ih

/-! ### The drop phase and what restore leaves for it -/

theorem bulkWriteInsert_cons_eq (e : String × List Doc) (es : Db) (n : String)
    (docs : List Doc) (h : (e.1 == n) = true) :
    bulkWriteInsert (e :: es) n docs
      = (e.1, e.2 ++ docs) :: bulkWriteInsert es n docs := by
  show (if (e.1 == n) = true then (e.1, e.2 ++ docs) else e)
      :: bulkWriteInsert es n docs
    = (e.1, e.2 ++ docs) :: bulkWriteInsert es n docs
  rw [if_pos h]

theorem bulkWriteInsert_cons_ne (e : String × List Doc) (es : Db) (n : String)
    (docs : List Doc) (h : (e.1 == n) = false) :
    bulkWriteInsert (e :: es) n docs = e :: bulkWriteInsert es n docs := by
  show (if (e.1 == n) = true then (e.1, e.2 ++ docs) else e)
      :: bulkWriteInsert es n docs
    = e :: bulkWriteInsert es n docs
  rw [if_neg (by rw [h]; exact Bool.false_ne_true)]

theorem dropCollections_createCollection (db : Db) (n : String)
    (hn : _systemCollection n = false) :
    _dropCollections (createCollection db n) = _dropCollections db := by
  unfold createCollection
  cases h : db.any (fun c => c.1 == n) with
  | true => simp
  | false =>
    simp only [Bool.false_eq_true, if_false, _dropCollections,
      List.filter_append]
    simp [hn]

theorem dropCollections_bulkWriteInsert (db : Db) (n : String)
    (docs : List Doc) (hn : _systemCollection n = false) :
    _dropCollections (bulkWriteInsert db n docs) = _dropCollections db := by
  induction db with
  | nil => rfl
  | cons e es ih =>
    cases he : (e.1 == n) with
    | true =>
      have he1 : e.1 = n := by simpa using he
      have hes : _systemCollection e.1 = false := by rw [he1]; exact hn
      rw [bulkWriteInsert_cons_eq e es n docs he]
      simp only [_dropCollections, List.filter_cons, hes, Bool.false_eq_true,
        if_false] at ih ⊢
      exact ih
    | false =>
      rw [bulkWriteInsert_cons_ne e es n docs he]
      cases hes : _systemCollection e.1 with
      | true =>
        simp only [_dropCollections, List.filter_cons, hes, if_true] at ih ⊢
        rw [ih]
      | false =>
        simp only [_dropCollections, List.filter_cons, hes, Bool.false_eq_true,
          if_false] at ih ⊢
        exact ih

/-- Whatever format `_getDataFormat` detects comes from the registry. -/
theorem _getDataFormat_foldl_mem (s : String) (l : List String)
    (acc : Option String) (fmt : String)
    (h : l.foldl (fun dataFormat key =>
        if strEndsWith s ("." ++ key) then some key else dataFormat) acc
      = some fmt) :
    acc = some fmt ∨ fmt ∈ l := by
  induction l generalizing acc with
  | nil => exact Or.inl h
  | cons k ks ih =>
    rcases ih _ h with h2 | h2
    · have h3 : (if strEndsWith s ("." ++ k) = true then some k else acc)
          = some fmt := h2
      by_cases hk : strEndsWith s ("." ++ k) = true
      · rw [if_pos hk] at h3
        have : k = fmt := by injection h3
        exact Or.inr (this ▸ List.mem_cons_self k ks)
      · rw [if_neg hk] at h3
        exact Or.inl h3
    · exact Or.inr (List.mem_cons_of_mem k h2)

theorem _getDataFormat_mem (s fmt : String)
    (h : _getDataFormat s = some fmt) : fmt ∈ FORMATS := by
  rcases _getDataFormat_foldl_mem s FORMATS none fmt h with h2 | h2
  · cases h2
  · exact h2

/-- When every recognized file derives a non-system target name, the restore
loop changes nothing that a later drop phase would see: the system-named part
of the database is untouched. -/
theorem dropCollections_restore (db : Db) (files : List BackupFile)
    (h : ∀ f ∈ files, ∀ fmt ∈ FORMATS, _getDataFormat f.name = some fmt →
      _systemCollection (jsReplaceFirst f.name ("." ++ fmt)) = false) :
    _dropCollections (_restoreCollections db files).1 = _dropCollections db := by
  induction files generalizing db with
  | nil => rfl
  | cons f fs ih =>
    have hf := h f (List.mem_cons_self f fs)
    have h2 : ∀ g ∈ fs, ∀ fmt ∈ FORMATS, _getDataFormat g.name = some fmt →
        _systemCollection (jsReplaceFirst g.name ("." ++ fmt)) = false :=
      fun g hg => h g (List.mem_cons_of_mem f hg)
    cases hfmt : _getDataFormat f.name with
    | none =>
      simp only [_restoreCollections, hfmt]
      exact ih _ h2
    | some fmt =>
      have hns := hf fmt (_getDataFormat_mem f.name fmt hfmt) hfmt
      cases hro : f.readOk with
      | true =>
        simp only [_restoreCollections, hfmt, hro, if_true]
        rw [ih _ h2, dropCollections_bulkWriteInsert _ _ _ hns,
          dropCollections_createCollection _ _ hns]
      | false =>
        simp only [_restoreCollections, hfmt, hro, Bool.false_eq_true, if_false]
        exact dropCollections_createCollection _ _ hns

theorem dropCollections_idem (db : Db) :
    _dropCollections (_dropCollections db) = _dropCollections db := by
  simp [_dropCollections, List.filter_filter]

/-- Running `doRestore` a second time over the same directory reproduces the
first run's result exactly, provided every recognized file derives a
non-system target name (so that the second drop phase clears exactly what the
first restore created). -/
theorem doRestore_doRestore (db : Db) (files : List BackupFile)
    (h : ∀ f ∈ files, ∀ fmt ∈ FORMATS, _getDataFormat f.name = some fmt →
      _systemCollection (jsReplaceFirst f.name ("." ++ fmt)) = false) :
    doRestore (doRestore db files).1 files = doRestore db files := by
  cases files with
  | nil => rfl
  | cons f fs =>
    have hdrop := dropCollections_restore (_dropCollections db) (f :: fs) h
    rcases hres : _restoreCollections (_dropCollections db) (f :: fs) with ⟨db2, o⟩
    have h1 : (doRestore db (f :: fs)).1 = db2 := by
      unfold doRestore
      rw [if_neg (by simp), hres]
      cases o <;> rfl
    have hkey : _dropCollections db2 = _dropCollections db := by
      have hdb2 : db2 = (_restoreCollections (_dropCollections db) (f :: fs)).1 := by
        rw [hres]
      rw [hdb2, hdrop, dropCollections_idem]
    rw [h1]
    unfold doRestore
    rw [if_neg (by simp), if_neg (by simp), hkey]

/-! ### Failure propagation lemmas -/

/-- When the first failing eligible collection is reached, the backup loop
has written exactly the files of the eligible collections before it, and the
rejection carries that collection's error sentence; the collections after it
are never examined. -/
theorem _backupCollections_abort (format : String) (pre post : List Collection)
    (c : Collection) (hpre : ∀ p ∈ pre, p.readOk = true)
    (hc : c.readOk = false) (hcs : _systemCollection c.collectionName = false) :
    _backupCollections format (pre ++ c :: post)
      = (toBackupFiles format (eligibleCollections pre),
         some ("Can't back up " ++ c.collectionName ++ ". " ++ c.errMsg)) := by
  induction pre with
  | nil =>
    simp only [List.nil_append, _backupCollections, hcs, Bool.false_eq_true,
      if_false, hc, toBackupFiles, eligibleCollections, List.filter_nil,
      List.map_nil]
  | cons p ps ih =>
    have hp := hpre p (List.mem_cons_self p ps)
    have ih2 := ih (fun x hx => hpre x (List.mem_cons_of_mem p hx))
    cases hs : _systemCollection p.collectionName with
    | true =>
      simp only [List.cons_append, _backupCollections, hs, if_true,
        List.append_eq]
      rw [ih2]
      simp [eligibleCollections, List.filter_cons, hs]
    | false =>
      simp only [List.cons_append, _backupCollections, hs, Bool.false_eq_true,
        if_false, hp, if_true, List.append_eq]
      rw [ih2]
      simp [eligibleCollections, toBackupFiles, List.filter_cons, hs]

/-- A restore over a single recognized, readable file: the target collection
named by removing the first occurrence of the dot-extension is created (after
the drop phase) and populated with the decoded documents. -/
theorem doRestore_singleton (db : Db) (f : BackupFile) (fmt : String)
    (hfmt : _getDataFormat f.name = some fmt) (hro : f.readOk = true) :
    doRestore db [f]
      = (bulkWriteInsert
          (createCollection (_dropCollections db)
            (jsReplaceFirst f.name ("." ++ fmt)))
          (jsReplaceFirst f.name ("." ++ fmt)) f.docs,
         "Database restored") := by
  unfold doRestore
  rw [if_neg (by simp)]
  simp only [_restoreCollections, hfmt, hro, if_true]

/-! ### Claim theorems -/

/-- C1 (as amended): backing up a non-empty database and restoring the
produced files into an empty target preserves every per-collection document
count, provided every collection is eligible (its name is not system-matched),
every collection streams cleanly, collection names are distinct, and every
collection's file name round-trips through the restore name derivation
(`_getDataFormat` recognizes `{name}.{format}` as `format`, and removing the
first occurrence of `.{format}` from `{name}.{format}` yields `{name}`).
As frozen the claim quantifies over every non-empty source database; it fails
for databases holding a system-matched collection name, which backup silently
omits — see the counterexample. -/
theorem c1_round_trip_counts (path database format : String) (t : Nat)
    (cols : List Collection)
    (hne : cols ≠ [])
    (hok : ∀ c ∈ cols, c.readOk = true)
    (hsys : ∀ c ∈ cols, _systemCollection c.collectionName = false)
    (hfmt : ∀ c ∈ cols,
      _getDataFormat (backupFileName c.collectionName format) = some format)
    (hname : ∀ c ∈ cols,
      jsReplaceFirst (backupFileName c.collectionName format) ("." ++ format)
        = c.collectionName)
    (hnodup : (cols.map Collection.collectionName).Nodup) :
    (doRestore [] (doBackup path database format t cols).files).2
      = "Database restored"
    ∧ ∀ name,
        docCount (doRestore [] (doBackup path database format t cols).files).1
          name
        = sourceCount cols name := by
  have helig : eligibleCollections cols = cols := by
    unfold eligibleCollections
    rw [List.filter_eq_self]
    intro c hc
    simp [hsys c hc]
  have hfiles : (doBackup path database format t cols).files
      = toBackupFiles format cols := by
    rw [doBackup_ok path database format t cols hne hok, helig]
  have hfresh0 : ∀ c ∈ cols, ∀ e ∈ ([] : Db), e.1 ≠ c.collectionName := by
    intro c hc e he
    cases he
  have hres := _restoreCollections_fresh format cols [] hfmt hname hfresh0 hnodup
  have hlen : ¬((toBackupFiles format cols).length = 0) := by
    simp only [toBackupFiles, List.length_map]
    intro hzero
    exact hne (List.length_eq_zero.mp hzero)
  have main : doRestore [] (toBackupFiles format cols)
      = ([] ++ cols.map (fun c => (c.collectionName, c.docs)),
         "Database restored") := by
    unfold doRestore
    rw [if_neg hlen]
    have hdrop0 : _dropCollections ([] : Db) = ([] : Db) := rfl
    rw [hdrop0, hres]
  rw [hfiles, main]
  refine ⟨rfl, ?_⟩
  intro name
  simp only [List.nil_append]
  exact docCount_map_eq_sourceCount cols name

/-- C1 counterexample: the claim as frozen fails for the non-empty source
database with collections `users` (1 document) and `mysystem.data`
(1 document).  The name `mysystem.data` matches the system pattern, so backup
writes no file for it; the restore of the produced directory succeeds yet the
target's count for `mysystem.data` is 0 where the source's is 1. -/
theorem c1_counterexample :
    (doRestore [] (doBackup "/b/" "shop" "json" 5
        [⟨"users", [0], true, ""⟩, ⟨"mysystem.data", [1], true, ""⟩]).files).2
      = "Database restored"
    ∧ sourceCount [⟨"users", [0], true, ""⟩, ⟨"mysystem.data", [1], true, ""⟩]
        "mysystem.data" = 1
    ∧ docCount (doRestore [] (doBackup "/b/" "shop" "json" 5
        [⟨"users", [0], true, ""⟩, ⟨"mysystem.data", [1], true, ""⟩]).files).1
        "mysystem.data" = 0 := by
  refine ⟨by decide, by decide, by decide⟩

/-- C1 witness: the spec's own concrete scenario (database `shop`,
collections `users` with 3 documents and `orders` with 2). -/
theorem c1_witness :
    (doRestore [] (doBackup "/backups/" "shop" "json" 1000
        [⟨"users", [1, 2, 3], true, ""⟩, ⟨"orders", [4, 5], true, ""⟩]).files).2
      = "Database restored"
    ∧ docCount (doRestore [] (doBackup "/backups/" "shop" "json" 1000
        [⟨"users", [1, 2, 3], true, ""⟩, ⟨"orders", [4, 5], true, ""⟩]).files).1
        "users"
      = sourceCount
          [⟨"users", [1, 2, 3], true, ""⟩, ⟨"orders", [4, 5], true, ""⟩]
          "users" := by
  have h := c1_round_trip_counts "/backups/" "shop" "json" 1000
    [⟨"users", [1, 2, 3], true, ""⟩, ⟨"orders", [4, 5], true, ""⟩]
    (by decide) (by decide) (by decide) (by decide) (by decide) (by decide)
  exact ⟨h.1, h.2 "users"⟩

/-- C2 (as amended): a second `doRestore` over the same backup directory
reproduces the first run's per-collection document counts, provided every
recognized file derives a non-system target collection name (the `because`
clause of the claim — restore drops a pre-existing same-named collection —
holds only for such names, since `_dropCollections` skips system-matched
names).  As frozen the claim quantifies over every backup directory; it fails
when a recognized file derives a system-named target — see the
counterexample, which uses a directory that `doBackup` itself produces. -/
theorem c2_restore_idempotent (db : Db) (files : List BackupFile)
    (h : ∀ f ∈ files, ∀ fmt ∈ FORMATS, _getDataFormat f.name = some fmt →
      _systemCollection (jsReplaceFirst f.name ("." ++ fmt)) = false) :
    ∀ name, docCount (doRestore (doRestore db files).1 files).1 name
      = docCount (doRestore db files).1 name := by
  intro name
  rw [doRestore_doRestore db files h]

/-- C2 counterexample: backing up the single non-system collection
`sys.jsontem.data` produces the file `sys.jsontem.data.json`; restoring it
derives the target name `system.data.json` (the first occurrence of `.json`
is removed from the middle of the file name), which matches the system
pattern.  The drop phase of a second restore therefore does not drop it, and
the second run doubles its document count: 1 after one run, 2 after two. -/
theorem c2_counterexample :
    (doBackup "/b/" "d" "json" 7 [⟨"sys.jsontem.data", [0], true, ""⟩]).files
      = [⟨"sys.jsontem.data.json", [0], true, ""⟩]
    ∧ docCount (doRestore []
        [⟨"sys.jsontem.data.json", [0], true, ""⟩]).1 "system.data.json" = 1
    ∧ docCount (doRestore (doRestore []
          [⟨"sys.jsontem.data.json", [0], true, ""⟩]).1
        [⟨"sys.jsontem.data.json", [0], true, ""⟩]).1 "system.data.json"
      = 2 := by
  refine ⟨by decide, by decide, by decide⟩

/-- C2 witness: restoring the file `users.json` twice leaves the same count
for `users` as restoring it once. -/
theorem c2_witness :
    docCount (doRestore (doRestore [] [⟨"users.json", [0, 1], true, ""⟩]).1
        [⟨"users.json", [0, 1], true, ""⟩]).1 "users"
      = docCount (doRestore [] [⟨"users.json", [0, 1], true, ""⟩]).1 "users" :=
  c2_restore_idempotent [] [⟨"users.json", [0, 1], true, ""⟩] (by decide) "users"

/-- C3 (as amended): a system-matched collection name is excluded from
backup enumeration (no backup run ever writes a file named after it) and
from restore's drop phase (the drop loop leaves any such collection in
place); but restore's create/transfer loop has no system check (the line-137
TODO), so a correspondingly named file IS created and populated — the third
conjunct of the frozen claim is refuted by the counterexample. -/
theorem c3_system_exclusion (n format : String)
    (hn : _systemCollection n = true) :
    (∀ (path database : String) (t : Nat) (cols : List Collection),
      backupFileName n format
        ∉ (doBackup path database format t cols).files.map BackupFile.name)
    ∧ (∀ (db : Db) (e : String × List Doc), e ∈ db → e.1 = n →
        e ∈ _dropCollections db)
    ∧ (∀ (db : Db) (f : BackupFile), _getDataFormat f.name = some format →
        jsReplaceFirst f.name ("." ++ format) = n → f.readOk = true →
        (doRestore db [f]).2 = "Database restored"
        ∧ docCount (doRestore db [f]).1 n
            = docCount (_dropCollections db) n + f.docs.length) := by
  refine ⟨?_, ?_, ?_⟩
  · intro path database t cols hmem
    rw [List.mem_map] at hmem
    obtain ⟨f, hf, hfname⟩ := hmem
    obtain ⟨c, hc, hcs, hcn⟩ := doBackup_files_mem hf
    rw [hcn] at hfname
    have heq := backupFileName_inj hfname
    rw [heq, hn] at hcs
    cases hcs
  · intro db e he hen
    apply List.mem_filter.mpr
    refine ⟨he, ?_⟩
    rw [hen]
    simp [hn]
  · intro db f hfmt hnm hro
    have h := doRestore_singleton db f format hfmt hro
    rw [hnm] at h
    rw [h]
    exact ⟨rfl, docCount_createInsert _ _ _⟩

/-- C3 counterexample: a restore directory holding the file
`system.indexes.json` — whose derived target `system.indexes` matches the
system pattern — is nonetheless created and populated by the restore loop,
refuting the claim's "restore's create/transfer loop does not create or
populate a collection for a correspondingly named file". -/
theorem c3_counterexample :
    _systemCollection "system.indexes" = true
    ∧ (doRestore [] [⟨"system.indexes.json", [0], true, ""⟩]).1
        = [("system.indexes", [0])] := by
  refine ⟨by decide, by decide⟩

/-- C3 witness: instantiated at the literal name `system.indexes` of the
claim, a database holding it, and the file `system.indexes.json`. -/
theorem c3_witness :
    (backupFileName "system.indexes" "json"
      ∉ (doBackup "/b/" "shop" "json" 3
          [⟨"users", [0], true, ""⟩, ⟨"system.indexes", [1], true, ""⟩]).files.map
        BackupFile.name)
    ∧ ("system.indexes", [1]) ∈ _dropCollections
        [("users", [0]), ("system.indexes", [1])]
    ∧ docCount (doRestore [] [⟨"system.indexes.json", [9], true, ""⟩]).1
        "system.indexes"
      = docCount (_dropCollections []) "system.indexes" + [9].length := by
  have h := c3_system_exclusion "system.indexes" "json" (by decide)
  refine ⟨h.1 "/b/" "shop" 3
      [⟨"users", [0], true, ""⟩, ⟨"system.indexes", [1], true, ""⟩],
    h.2.1 [("users", [0]), ("system.indexes", [1])] ("system.indexes", [1])
      (by decide) rfl,
    (h.2.2 [] ⟨"system.indexes.json", [9], true, ""⟩ (by decide) (by decide)
      rfl).2⟩

/-- C4 (as amended): a mid-transfer read failure while restoring one file is
fatal for the whole run, not for that file only: the rejection of
`_restoreCollection` propagates through the un-guarded `await` in the file
loop, so the files after the failing one are never processed (the run result
does not depend on them at all), and `doRestore` resolves to the error
sentence naming that file's target collection rather than to the completion
result.  The frozen claim — remaining files still processed, completion
result returned — is refuted by the counterexample. -/
theorem c4_restore_read_failure_aborts (db : Db) (pre post : List BackupFile)
    (bad : BackupFile) (fmt : String)
    (hpre : ∀ f ∈ pre, f.readOk = true)
    (hbad : bad.readOk = false)
    (hfmt : _getDataFormat bad.name = some fmt) :
    doRestore db (pre ++ bad :: post) = doRestore db (pre ++ [bad])
    ∧ (doRestore db (pre ++ bad :: post)).2
        = "Error while restoring database. "
          ++ ("Can't restore " ++ jsReplaceFirst bad.name ("." ++ fmt)
            ++ ". " ++ bad.errMsg) := by
  constructor
  · unfold doRestore
    rw [if_neg (by simp), if_neg (by simp),
      _restoreCollections_abort (_dropCollections db) pre post bad fmt hpre
        hbad hfmt]
  · have hsnd := _restoreCollections_abort_snd (_dropCollections db) pre post
      bad fmt hpre hbad hfmt
    unfold doRestore
    rw [if_neg (by simp)]
    rcases hres : _restoreCollections (_dropCollections db) (pre ++ bad :: post)
      with ⟨db2, o⟩
    rw [hres] at hsnd
    simp only at hsnd
    rw [hsnd]

/-- C4 counterexample: with the directory `[a.json (read fails), b.json]`,
the failure on `a.json` aborts the run — `b` is never created (count 0) and
`doRestore` resolves to the error sentence, not to `Database restored`. -/
theorem c4_counterexample :
    (doRestore [] [⟨"a.json", [0], false, "read failed"⟩,
        ⟨"b.json", [1], true, ""⟩]).2
      = "Error while restoring database. Can't restore a. read failed"
    ∧ docCount (doRestore [] [⟨"a.json", [0], false, "read failed"⟩,
        ⟨"b.json", [1], true, ""⟩]).1 "b" = 0 := by
  refine ⟨by decide, by decide⟩

/-- C4 witness: the amended behaviour at a concrete directory. -/
theorem c4_witness :
    doRestore [] [⟨"a.json", [0], false, "boom"⟩, ⟨"b.json", [1], true, ""⟩]
      = doRestore [] [⟨"a.json", [0], false, "boom"⟩]
    ∧ (doRestore [] [⟨"a.json", [0], false, "boom"⟩,
        ⟨"b.json", [1], true, ""⟩]).2
      = "Error while restoring database. "
        ++ ("Can't restore " ++ jsReplaceFirst "a.json" ".json"
          ++ ". " ++ "boom") := by
  have h := c4_restore_read_failure_aborts [] []
    [⟨"b.json", [1], true, ""⟩] ⟨"a.json", [0], false, "boom"⟩ "json"
    (by decide) (by decide) (by decide)
  exact h

/-- C5 (confirmed): when an eligible collection's read stream fails during
backup, the whole run aborts — the collections after it are never examined
(the run result does not depend on them) — and the failure reaches the
caller as the single descriptive sentence resolved by `doBackup`
(`Error while backing up database. Can't back up {name}. {message}`).
`doBackup` is a total function into a result record whose `message` is that
sentence: no structured exception is thrown. -/
theorem c5_backup_failure_aborts (path database format : String) (t : Nat)
    (pre post : List Collection) (c : Collection)
    (hpre : ∀ p ∈ pre, p.readOk = true)
    (hc : c.readOk = false)
    (hcs : _systemCollection c.collectionName = false) :
    doBackup path database format t (pre ++ c :: post)
      = doBackup path database format t (pre ++ [c])
    ∧ (doBackup path database format t (pre ++ c :: post)).message
        = "Error while backing up database. "
          ++ ("Can't back up " ++ c.collectionName ++ ". " ++ c.errMsg) := by
  have h1 := _backupCollections_abort format pre post c hpre hc hcs
  have h2 := _backupCollections_abort format pre ([] : List Collection) c hpre
    hc hcs
  constructor
  · unfold doBackup
    rw [if_neg (by simp), if_neg (by simp), h1, h2]
  · unfold doBackup
    rw [if_neg (by simp), h1]

/-- C5 witness: a failing `orders` collection aborts the run after `users`
and resolves to the error sentence. -/
theorem c5_witness :
    doBackup "/b/" "shop" "json" 4
        [⟨"users", [0], true, ""⟩, ⟨"orders", [1], false, "cursor died"⟩,
         ⟨"late", [2], true, ""⟩]
      = doBackup "/b/" "shop" "json" 4
        [⟨"users", [0], true, ""⟩, ⟨"orders", [1], false, "cursor died"⟩]
    ∧ (doBackup "/b/" "shop" "json" 4
        [⟨"users", [0], true, ""⟩, ⟨"orders", [1], false, "cursor died"⟩,
         ⟨"late", [2], true, ""⟩]).message
      = "Error while backing up database. "
        ++ ("Can't back up " ++ "orders" ++ ". " ++ "cursor died") :=
  c5_backup_failure_aborts "/b/" "shop" "json" 4
    [⟨"users", [0], true, ""⟩] [⟨"late", [2], true, ""⟩]
    ⟨"orders", [1], false, "cursor died"⟩ (by decide) (by decide) (by decide)

/-- C6 (confirmed): a successful backup of a non-empty database creates
exactly one directory, named `{path}{epochMillis}_{databaseName}`, and writes
exactly one file per eligible (non-system) collection into it, named
`{collectionName}.{format}`: N eligible collections give exactly N files. -/
theorem c6_backup_layout (path database format : String) (t : Nat)
    (cols : List Collection) (hne : cols ≠ [])
    (hok : ∀ c ∈ cols, c.readOk = true) :
    (doBackup path database format t cols).dirs
        = [backupFolderName path t database]
    ∧ (doBackup path database format t cols).files.map BackupFile.name
        = (eligibleCollections cols).map
            (fun c => backupFileName c.collectionName format)
    ∧ (doBackup path database format t cols).files.length
        = (eligibleCollections cols).length
    ∧ (doBackup path database format t cols).message
        = "Backup is ready. Path to backup is "
          ++ backupFolderName path t database ++ "." := by
  rw [doBackup_ok path database format t cols hne hok]
  refine ⟨rfl, ?_, ?_, rfl⟩
  · simp [toBackupFiles, List.map_map]
  · simp [toBackupFiles]

/-- C6 witness: two eligible collections and one system collection give a
run directory `{path}{t}_{database}` holding exactly two files. -/
theorem c6_witness :
    (doBackup "/b/" "shop" "json" 99
        [⟨"users", [0], true, ""⟩, ⟨"system.views", [1], true, ""⟩,
         ⟨"orders", [2], true, ""⟩]).dirs
      = [backupFolderName "/b/" 99 "shop"]
    ∧ (doBackup "/b/" "shop" "json" 99
        [⟨"users", [0], true, ""⟩, ⟨"system.views", [1], true, ""⟩,
         ⟨"orders", [2], true, ""⟩]).files.length
      = (eligibleCollections
          [⟨"users", [0], true, ""⟩, ⟨"system.views", [1], true, ""⟩,
           ⟨"orders", [2], true, ""⟩]).length := by
  have h := c6_backup_layout "/b/" "shop" "json" 99
    [⟨"users", [0], true, ""⟩, ⟨"system.views", [1], true, ""⟩,
     ⟨"orders", [2], true, ""⟩] (by decide) (by decide)
  exact ⟨h.1, h.2.2.1⟩

/-- C7 (confirmed): a file whose extension matches no registered format is
skipped and the restore continues — the run over `pre ++ u :: post` equals
the run over `pre ++ post` exactly (same final database, same message), and
when the recognized files all read cleanly the overall operation still
resolves to `Database restored`: the unrecognized file never fails the
operation.  (The informational `logInfo` note at index.js line 133 is a side
channel outside the embedding; "not an error" is captured by the unchanged
success message.) -/
theorem c7_unrecognized_file_skipped (db : Db) (pre post : List BackupFile)
    (u : BackupFile) (hu : _getDataFormat u.name = none)
    (hne : pre ++ post ≠ [])
    (hok : ∀ f ∈ pre ++ post, f.readOk = true) :
    doRestore db (pre ++ u :: post) = doRestore db (pre ++ post)
    ∧ (doRestore db (pre ++ u :: post)).2 = "Database restored" := by
  have hskip := _restoreCollections_skip (_dropCollections db) pre post u hu
  have heq : doRestore db (pre ++ u :: post) = doRestore db (pre ++ post) := by
    unfold doRestore
    rw [if_neg (by simp), if_neg (by simpa [List.length_eq_zero] using hne),
      hskip]
  refine ⟨heq, ?_⟩
  rw [heq]
  have hnone := _restoreCollections_none (_dropCollections db) (pre ++ post)
    (fun f hf => Or.inl (hok f hf))
  unfold doRestore
  rw [if_neg (by simpa [List.length_eq_zero] using hne)]
  rcases hres : _restoreCollections (_dropCollections db) (pre ++ post)
    with ⟨db2, o⟩
  rw [hres] at hnone
  simp only at hnone
  rw [hnone]

/-- C7 witness: a directory holding `users.json` and the unrecognized
`notes.txt` restores exactly as the directory without `notes.txt`, and
resolves to `Database restored`. -/
theorem c7_witness :
    doRestore [] [⟨"users.json", [0], true, ""⟩, ⟨"notes.txt", [7], true, ""⟩]
      = doRestore [] [⟨"users.json", [0], true, ""⟩]
    ∧ (doRestore [] [⟨"users.json", [0], true, ""⟩,
        ⟨"notes.txt", [7], true, ""⟩]).2 = "Database restored" :=
  c7_unrecognized_file_skipped [] [⟨"users.json", [0], true, ""⟩] []
    ⟨"notes.txt", [7], true, ""⟩ (by decide) (by decide) (by decide)

/-- C8 (confirmed): backing up a database with zero collections yields the
failure sentence `Error while backing up database. Database is empty`
(index.js line 39 rejects before `_backupCollections` runs), and no backup
directory is created (`mkdirSync` at line 88 is never reached): the result
records no created directory and no written file. -/
theorem c8_empty_database (path database format : String) (t : Nat) :
    doBackup path database format t []
      = { dirs := [], files := [],
          message := "Error while backing up database. Database is empty" } :=
  rfl

/-- C9 (as amended): for a restore file whose extension matches a registered
format, the target collection name is the file name with the FIRST occurrence
of `.{format}` removed (JS `replace` with a string pattern, index.js line
138) — which coincides with stripping the trailing extension exactly when
`.{format}` occurs nowhere earlier in the name — and the collection of that
derived name is created and populated with the file's documents.  The frozen
claim's "the trailing `.{format}` suffix stripped" is refuted by the
counterexample `a.json.b.json`. -/
theorem c9_restore_name_derivation (db : Db) (f : BackupFile) (fmt : String)
    (hfmt : _getDataFormat f.name = some fmt) (hro : f.readOk = true) :
    (doRestore db [f]).2 = "Database restored"
    ∧ docCount (doRestore db [f]).1 (jsReplaceFirst f.name ("." ++ fmt))
        = docCount (_dropCollections db) (jsReplaceFirst f.name ("." ++ fmt))
          + f.docs.length := by
  have h := doRestore_singleton db f fmt hfmt hro
  rw [h]
  exact ⟨rfl, docCount_createInsert _ _ _⟩

/-- C9 counterexample: restoring the file `a.json.b.json` (recognized as
`json`) creates and populates the collection `a.b.json` — the first `.json`
is removed — not `a.json.b`, the name the trailing-suffix reading predicts,
which ends up with no collection at all. -/
theorem c9_counterexample :
    (doRestore [] [⟨"a.json.b.json", [0], true, ""⟩]).1 = [("a.b.json", [0])]
    ∧ docCount (doRestore [] [⟨"a.json.b.json", [0], true, ""⟩]).1 "a.json.b"
      = 0 := by
  refine ⟨by decide, by decide⟩

/-- C9 witness: the common case `users.json`, where the first and the
trailing occurrence coincide: collection `users` is created with the file's
3 documents. -/
theorem c9_witness :
    (doRestore [] [⟨"users.json", [1, 2, 3], true, ""⟩]).2
      = "Database restored"
    ∧ docCount (doRestore [] [⟨"users.json", [1, 2, 3], true, ""⟩]).1
        (jsReplaceFirst "users.json" ".json")
      = docCount (_dropCollections []) (jsReplaceFirst "users.json" ".json")
        + [1, 2, 3].length :=
  c9_restore_name_derivation [] ⟨"users.json", [1, 2, 3], true, ""⟩ "json"
    (by decide) (by decide)

/-- C10 (confirmed): the system-collection predicate is substring
containment, not a reserved-prefix match — every name of shape
`{pre}system.{suf}`, with arbitrary text before the reserved marker, tests as
system-reserved; consequently no backup run ever writes the file such a
collection would get (it is silently omitted from backup output), and
restore's cleanup phase never drops a collection of such a name. -/
theorem c10_substring_containment (pre suf path database format : String)
    (t : Nat) (cols : List Collection) (db : Db) (e : String × List Doc)
    (he : e ∈ db) (hename : e.1 = pre ++ "system." ++ suf) :
    _systemCollection (pre ++ "system." ++ suf) = true
    ∧ backupFileName (pre ++ "system." ++ suf) format
        ∉ (doBackup path database format t cols).files.map BackupFile.name
    ∧ e ∈ _dropCollections db := by
  have hn := systemCollection_append pre suf
  refine ⟨hn, ?_, ?_⟩
  · intro hmem
    rw [List.mem_map] at hmem
    obtain ⟨f, hf, hfname⟩ := hmem
    obtain ⟨c, hc, hcs, hcn⟩ := doBackup_files_mem hf
    rw [hcn] at hfname
    have heq := backupFileName_inj hfname
    rw [heq, hn] at hcs
    cases hcs
  · apply List.mem_filter.mpr
    refine ⟨he, ?_⟩
    rw [hename]
    simp [hn]

/-- C10 witness: the claim's own example `mysystem.data` (= `my` ++
`system.` ++ `data`): it tests as system-reserved, its would-be backup file
never appears, and restore's cleanup leaves it in the database. -/
theorem c10_witness :
    _systemCollection ("my" ++ "system." ++ "data") = true
    ∧ backupFileName ("my" ++ "system." ++ "data") "json"
        ∉ (doBackup "/b/" "shop" "json" 12
            [⟨"users", [0], true, ""⟩,
             ⟨"mysystem.data", [1], true, ""⟩]).files.map BackupFile.name
    ∧ ("mysystem.data", [1]) ∈ _dropCollections
        [("users", [0]), ("mysystem.data", [1])] :=
  c10_substring_containment "my" "data" "/b/" "shop" "json" 12
    [⟨"users", [0], true, ""⟩, ⟨"mysystem.data", [1], true, ""⟩]
    [("users", [0]), ("mysystem.data", [1])] ("mysystem.data", [1])
    (by decide) (by decide)
